import Mathlib

/-!
Verification of the delta-calculator kinematics and build-volume core.

The embedding translates the TypeScript sources
`src/constants.ts` (GeometryUtils, MathUtils, DEFAULT_DELTA_CONFIG, presets),
`src/calculations/DeltaCalculations.ts` and
`src/calculations/BuildPlateConstraintCalculator.ts` into Lean over the real
numbers.  JavaScript `number` values are modelled as `ℝ`; the single source of
`NaN` in this core is `Math.sqrt` of a negative argument (an unreachable
inverse-kinematics solve), which we model by `Option ℝ` with `none` playing
the role of `NaN`.  `NaN` propagation through `+`, `-`, `Math.min` and
comparisons (every comparison with `NaN` is false) is reproduced by the
`nadd`/`nsub`/`nmin`/`nge` helpers below.
-/

open Real

noncomputable section

namespace DeltaCalc

open Classical in
/-- Every proposition is classically decidable; lets us translate JS `if`
branches on real-number comparisons directly. -/
scoped instance (priority := low) (p : Prop) : Decidable p := propDecidable p

/-- `Vector3Like` from `types.ts`: a plain 3D point (all coordinates finite). -/
@[ext] structure Vec3 where
  x : ℝ
  y : ℝ
  z : ℝ

/-- An effector position whose vertical coordinate may be `NaN` (`none`).
`constrainPosition` can return such a value (the radial clamp keeps `x`/`y`
finite, but the carriage correction can add `NaN` into `z`). -/
@[ext] structure PosN where
  x : ℝ
  y : ℝ
  z : Option ℝ

/-- JS addition with `NaN` (`none`) propagation. -/
def nadd : Option ℝ → Option ℝ → Option ℝ
  | some a, some b => some (a + b)
  | _, _ => none

/-- JS subtraction with `NaN` propagation. -/
def nsub : Option ℝ → Option ℝ → Option ℝ
  | some a, some b => some (a - b)
  | _, _ => none

/-- JS `Math.min`: `NaN` absorbs. -/
def nmin : Option ℝ → Option ℝ → Option ℝ
  | some a, some b => some (min a b)
  | _, _ => none

/-- JS `a >= b`: false whenever either side is `NaN`. -/
def nge (a b : Option ℝ) : Prop :=
  ∃ x y, a = some x ∧ b = some y ∧ y ≤ x

/-- `MathUtils.clamp(value, min, max) = Math.max(min, Math.min(max, value))`,
lifted to a possibly-`NaN` value (`clamp(NaN) = NaN`). -/
def nclamp (v : Option ℝ) (lo hi : ℝ) : Option ℝ :=
  v.map fun w => max lo (min hi w)

/-- `DeltaRobotConfig` from `types.ts` (all 13 numeric fields). -/
structure DeltaRobotConfig where
  rod_radius : ℝ
  bot_radius : ℝ
  bot_height : ℝ
  rod_spacing : ℝ
  eff_spacing : ℝ
  arm_length : ℝ
  arm_radius : ℝ
  effector_radius : ℝ
  carriage_inset : ℝ
  carriage_height : ℝ
  carriage_offset : ℝ
  tower_offset : ℝ
  diagonal_rod_length : ℝ

/-- `ConstraintType` from `types.ts`. -/
inductive ConstraintType where
  | effectorEdge
  | effectorTip
  | horizontalExtrusions
deriving DecidableEq

/-- The fields of `BuildVolumeConfig` consumed by the calculation core
(`physical_bed_radius` and `constraint_type`; the remaining fields are
display-only outputs recomputed by the core). -/
structure BuildVolumeConfig where
  physical_bed_radius : ℝ
  constraint_type : ConstraintType

/-- `DEFAULT_DELTA_CONFIG.EFFECTOR_HEIGHT` (constants.ts). -/
def EFFECTOR_HEIGHT : ℝ := 10

/-- `DEFAULT_DELTA_CONFIG.PLATFORM_HEIGHT` (constants.ts). -/
def PLATFORM_HEIGHT : ℝ := 10

/-- Default `towerCollisionOffset` set in the
`BuildPlateConstraintCalculator` constructor (10mm). -/
def defaultTowerCollisionOffset : ℝ := 10

/-- The `kossel-standard` entry of `PRESET_CONFIGS` (constants.ts). -/
def kosselStandard : DeltaRobotConfig where
  rod_radius := 4
  bot_radius := 195
  bot_height := 520
  rod_spacing := 30
  eff_spacing := 30
  arm_length := 100
  arm_radius := 2.5
  effector_radius := 40
  carriage_inset := 25
  carriage_height := 30
  carriage_offset := 0
  tower_offset := 25
  diagonal_rod_length := 240

/-- Angle used by `GeometryUtils.calculateTowerPosition`:
`towerIndex * (PI2 / 3) + (PI2 / 6)` with `PI2 = 2π`.  (The source comment
says "30° offset", but `PI2 / 6 = 60°`.) -/
def towerAngle (towerIndex : ℕ) : ℝ :=
  (towerIndex : ℝ) * (2 * π / 3) + 2 * π / 6

/-- `GeometryUtils.calculateTowerPosition(towerIndex, radius)`. -/
def calculateTowerPosition (towerIndex : ℕ) (radius : ℝ) : Vec3 where
  x := Real.sin (towerAngle towerIndex) * radius
  y := 0
  z := Real.cos (towerAngle towerIndex) * radius

/-- `GeometryUtils.calculateArmPosition(armIndex, radius, spacing, centerOnly)`.
`towerIndex = Math.floor(armIndex / 2)` is ℕ division. -/
def calculateArmPosition (armIndex : ℕ) (radius spacing : ℝ)
    (centerOnly : Bool) : Vec3 :=
  let towerIndex := armIndex / 2
  let baseAngle := towerAngle towerIndex
  if centerOnly = true ∨ spacing = 0 then
    { x := Real.sin baseAngle * radius, y := 0, z := Real.cos baseAngle * radius }
  else
    let sign : ℝ := if armIndex % 2 = 1 then -1 else 1
    let perpAngle := baseAngle + 2 * π / 4
    let offset := sign * spacing / 2
    let basePos := calculateTowerPosition towerIndex radius
    { x := basePos.x + Real.sin perpAngle * offset
      y := basePos.y
      z := basePos.z + Real.cos perpAngle * offset }

/-- The squared horizontal distance computed inside
`DeltaCalculations.calculateCarriagePositions` for tower `i`:
`deltaX² + deltaY²` with `deltaX = towerPos.x - nubWorldPos.x` and
`deltaY = towerPos.y - nubWorldPos.y` (the code measures "horizontal"
distance in the (x, y) plane). -/
def carriageHDistSq (cfg : DeltaRobotConfig) (px py : ℝ) (i : ℕ) : ℝ :=
  let towerPos := calculateTowerPosition i cfg.bot_radius
  let effectorNubCenter := calculateArmPosition (i * 2) cfg.effector_radius 0 true
  (towerPos.x - (px + effectorNubCenter.x)) ^ 2 +
    (towerPos.y - (py + effectorNubCenter.y)) ^ 2

/-- One tower of `DeltaCalculations.calculateCarriagePositions`:
`carriageZ = nubWorldPos.z + Math.sqrt(armLength² - horizontalDistanceSquared)`,
which is `NaN` (`none`) when the argument of `sqrt` is negative or the input
`z` is already `NaN`. -/
def carriageZ (cfg : DeltaRobotConfig) (p : PosN) (i : ℕ) : Option ℝ :=
  let effectorNubCenter := calculateArmPosition (i * 2) cfg.effector_radius 0 true
  let hSq := carriageHDistSq cfg p.x p.y i
  if cfg.arm_length ^ 2 - hSq < 0 then none
  else p.z.map fun w => w + effectorNubCenter.z + Real.sqrt (cfg.arm_length ^ 2 - hSq)

/-- `DeltaCalculations.calculateCarriagePositions` (the loop body runs for
`i = 0, 1, 2`). -/
def calculateCarriagePositions (cfg : DeltaRobotConfig) (p : PosN) : List (Option ℝ) :=
  [carriageZ cfg p 0, carriageZ cfg p 1, carriageZ cfg p 2]

/-- `minCarriageZ` in `DeltaCalculations.validatePosition`. -/
def minCarriageZ (cfg : DeltaRobotConfig) : ℝ :=
  -(cfg.bot_height / 2) + cfg.carriage_height / 2

/-- `maxCarriageZ` in `DeltaCalculations.validatePosition`. -/
def maxCarriageZ (cfg : DeltaRobotConfig) : ℝ :=
  cfg.bot_height / 2 - cfg.carriage_height / 2

/-- The per-carriage test in `validatePosition`:
`z >= minCarriageZ && z <= maxCarriageZ && !Number.isNaN(z)`
(a `NaN` carriage fails every comparison). -/
def carriageInRange (cfg : DeltaRobotConfig) (c : Option ℝ) : Prop :=
  ∃ z, c = some z ∧ minCarriageZ cfg ≤ z ∧ z ≤ maxCarriageZ cfg

/-- `is_reachable` as computed by `DeltaCalculations.validatePosition`:
`carriagePositions.every(...)`. -/
def isReachable (cfg : DeltaRobotConfig) (p : PosN) : Prop :=
  ∀ c ∈ calculateCarriagePositions cfg p, carriageInRange cfg c

/-- `DeltaCalculations.calculateOptimalArmLength`. -/
def calculateOptimalArmLength (cfg : DeltaRobotConfig) : ℝ :=
  let base := cfg.bot_radius * 2 - cfg.effector_radius * 2 -
    cfg.carriage_inset + cfg.carriage_height
  let maxVerticalLength := cfg.bot_height - cfg.carriage_height / 2
  let capped := if base > maxVerticalLength then maxVerticalLength else base
  let minArmLength := cfg.bot_radius * 0.8
  if capped < minArmLength then minArmLength else capped

/-! ### BuildPlateConstraintCalculator -/

/-- `minCarriageY` in `BuildPlateConstraintCalculator`
(`-halfHeight + carriageHeight / 2`). -/
def minCarriageY (cfg : DeltaRobotConfig) : ℝ :=
  -(cfg.bot_height / 2) + cfg.carriage_height / 2

/-- `maxCarriageY` in `BuildPlateConstraintCalculator`. -/
def maxCarriageY (cfg : DeltaRobotConfig) : ℝ :=
  cfg.bot_height / 2 - cfg.carriage_height / 2

/-- Tower angle used throughout `BuildPlateConstraintCalculator`:
`towerIndex * 120 * Math.PI / 180`. -/
def bpcTowerAngle (towerIndex : ℕ) : ℝ :=
  (towerIndex : ℝ) * 120 * π / 180

/-- `BuildPlateConstraintCalculator.calculateRequiredCarriageY(towerIndex,
effectorPos)`: the inverse-kinematics solve for one tower; returns `NaN`
(`none`) when the horizontal distance exceeds the arm length. -/
def calculateRequiredCarriageY (cfg : DeltaRobotConfig) (towerIndex : ℕ)
    (ex ey ez : ℝ) : Option ℝ :=
  let towerAngleV := bpcTowerAngle towerIndex
  let carriageX := (cfg.bot_radius - cfg.carriage_inset) * Real.cos towerAngleV
  let carriageZv := (cfg.bot_radius - cfg.carriage_inset) * Real.sin towerAngleV
  let deltaX := carriageX - ex
  let deltaZ := carriageZv - ez
  let horizontalDistanceSquared := deltaX * deltaX + deltaZ * deltaZ
  if horizontalDistanceSquared > cfg.arm_length * cfg.arm_length then none
  else some (ey + Real.sqrt (cfg.arm_length * cfg.arm_length - horizontalDistanceSquared))

/-- `testY` in `calculateCarriageConstrainedRadius`: `minCarriageY + 50`. -/
def ccrTestY (cfg : DeltaRobotConfig) : ℝ := minCarriageY cfg + 50

/-- The inner loop of `calculateCarriageConstrainedRadius`: at candidate
radius `testRadius`, all three towers (at angles 0°, 120°, 240°) must admit a
carriage position that is neither `NaN` nor outside
`[minCarriageY, maxCarriageY]`. -/
def ccrFeasible (cfg : DeltaRobotConfig) (testRadius : ℝ) : Prop :=
  ∀ tower : ℕ, tower < 3 →
    ∃ y, calculateRequiredCarriageY cfg tower
        (testRadius * Real.cos (bpcTowerAngle tower)) (ccrTestY cfg)
        (testRadius * Real.sin (bpcTowerAngle tower)) = some y ∧
      minCarriageY cfg ≤ y ∧ y ≤ maxCarriageY cfg

/-- The `for (testRadius = 0; testRadius <= maxTestRadius; testRadius += 5)`
loop of `calculateCarriageConstrainedRadius`, compiled to fuel-counted
recursion: `k` is the iteration index (candidate radius `5 * k`) and
`maxValid` the best radius found so far.  The fuel passed by
`calculateCarriageConstrainedRadius` is large enough that the loop always
stops on its own guard or its `break`, never by exhausting fuel. -/
def ccrGo (cfg : DeltaRobotConfig) : ℕ → ℕ → ℝ → ℝ
  | 0, _, maxValid => maxValid
  | fuel + 1, k, maxValid =>
    if (5 * k : ℝ) ≤ cfg.bot_radius + 50 then
      if ccrFeasible cfg (5 * k) then ccrGo cfg fuel (k + 1) (5 * k)
      else maxValid
    else maxValid

/-- `BuildPlateConstraintCalculator.calculateCarriageConstrainedRadius`. -/
def calculateCarriageConstrainedRadius (cfg : DeltaRobotConfig) : ℝ :=
  ccrGo cfg (Nat.floor ((cfg.bot_radius + 50) / 5) + 1) 0 0

/-- `BuildPlateConstraintCalculator.calculateEffectorEdgeConstraint`
(with the calculator's `towerCollisionOffset` as explicit parameter). -/
def calculateEffectorEdgeConstraint (cfg : DeltaRobotConfig) (offset : ℝ) : ℝ :=
  let towerEdgeRadius := cfg.bot_radius - cfg.rod_radius
  let maxRadius := towerEdgeRadius - cfg.effector_radius - offset
  max 0 (min maxRadius (calculateCarriageConstrainedRadius cfg))

/-- `BuildPlateConstraintCalculator.calculateEffectorTipConstraint`. -/
def calculateEffectorTipConstraint (cfg : DeltaRobotConfig) (offset : ℝ) : ℝ :=
  let towerEdgeRadius := cfg.bot_radius - cfg.rod_radius
  let maxRadius := towerEdgeRadius - offset
  max 0 (min maxRadius (calculateCarriageConstrainedRadius cfg))

/-- `BuildPlateConstraintCalculator.calculateHorizontalExtrusionConstraint`
(`extrusionThickness = 20`). -/
def calculateHorizontalExtrusionConstraint (cfg : DeltaRobotConfig) (offset : ℝ) : ℝ :=
  let maxRadius := cfg.bot_radius - 20 - offset
  max 0 (min maxRadius (calculateCarriageConstrainedRadius cfg))

/-- `BuildPlateConstraintCalculator.calculateRealBuildPlateRadius`: dispatch
on the active constraint type. -/
def calculateRealBuildPlateRadius (cfg : DeltaRobotConfig) (ct : ConstraintType)
    (offset : ℝ) : ℝ :=
  match ct with
  | .effectorEdge => calculateEffectorEdgeConstraint cfg offset
  | .effectorTip => calculateEffectorTipConstraint cfg offset
  | .horizontalExtrusions => calculateHorizontalExtrusionConstraint cfg offset

/-! ### DeltaCalculations: build volume and position constraining -/

/-- `DeltaCalculations.calculateKinematicLimit`. -/
def calculateKinematicLimit (cfg : DeltaRobotConfig) : ℝ :=
  let towerToCarriage := cfg.bot_radius - cfg.carriage_inset
  max 0 (towerToCarriage + cfg.arm_length - cfg.effector_radius - 10)

/-- `DeltaCalculations.calculateBuildHeight`. -/
def calculateBuildHeight (cfg : DeltaRobotConfig) : ℝ :=
  let halfHeight := cfg.bot_height / 2
  let effectorEndstopZ := halfHeight - cfg.arm_length - cfg.carriage_height / 2
  let effectorZeroZ := -halfHeight + EFFECTOR_HEIGHT / 2
  max 0 (effectorEndstopZ - effectorZeroZ)

/-- One entry of the `constraintAnalysis` array built by
`calculateBuildVolume`. -/
structure ConstraintEntry where
  ctype : String
  value : ℝ
  isLimiting : Prop

/-- The record returned by `DeltaCalculations.calculateBuildVolume`. -/
structure BuildVolumeResult where
  maxPrintRadius : ℝ
  recommendedPrintRadius : ℝ
  buildVolumeHeight : ℝ
  constraintAnalysis : List ConstraintEntry
  towerRadius : ℝ
  printableRadius : ℝ
  printBedRadius : ℝ

/-- `MathUtils.isWithinTolerance(value, target, tolerance)`. -/
def isWithinTolerance (value target tolerance : ℝ) : Prop :=
  |value - target| ≤ tolerance

/-- `DeltaCalculations.calculateBuildVolume`.  The façade's constraint
calculator always carries the constructor-default `towerCollisionOffset`
(10mm); `DeltaCalculations` never changes it. -/
def calculateBuildVolume (cfg : DeltaRobotConfig) (bc : BuildVolumeConfig) :
    BuildVolumeResult :=
  let theoreticalPrintableRadius :=
    calculateRealBuildPlateRadius cfg bc.constraint_type defaultTowerCollisionOffset
  let kinematicRadius := calculateKinematicLimit cfg
  let maxPrintRadius := min theoreticalPrintableRadius kinematicRadius
  let recommendedPrintRadius := maxPrintRadius * 0.9
  let buildVolumeHeight := calculateBuildHeight cfg
  { maxPrintRadius := maxPrintRadius
    recommendedPrintRadius := recommendedPrintRadius
    buildVolumeHeight := buildVolumeHeight
    constraintAnalysis :=
      [{ ctype := "Theoretical", value := theoreticalPrintableRadius
         isLimiting := isWithinTolerance theoreticalPrintableRadius maxPrintRadius 1 },
       { ctype := "Kinematic", value := kinematicRadius
         isLimiting := isWithinTolerance kinematicRadius maxPrintRadius 1 },
       { ctype := "Physical Bed", value := bc.physical_bed_radius
         isLimiting := isWithinTolerance bc.physical_bed_radius maxPrintRadius 1 }]
    towerRadius := cfg.bot_radius
    printableRadius := recommendedPrintRadius
    printBedRadius := maxPrintRadius }

/-- `minAllowedCarriageZ` in `DeltaCalculations.applyCarriageConstraints`:
`max(buildPlateLevel + 10, frameMinZ)` with
`buildPlateLevel = -halfHeight + PLATFORM_HEIGHT` and
`frameMinZ = -halfHeight + 25`. -/
def minAllowedCarriageZ (cfg : DeltaRobotConfig) : ℝ :=
  let halfHeight := cfg.bot_height / 2
  max (-halfHeight + PLATFORM_HEIGHT + 10) (-halfHeight + 25)

/-- `Math.min(...carriagePositions)` for the three towers (`NaN` absorbs). -/
def lowestCarriageZ (cfg : DeltaRobotConfig) (p : PosN) : Option ℝ :=
  nmin (nmin (carriageZ cfg p 0) (carriageZ cfg p 1)) (carriageZ cfg p 2)

/-- `DeltaCalculations.applyCarriageConstraints`. -/
def applyCarriageConstraints (cfg : DeltaRobotConfig) (p : PosN) : PosN :=
  if nge (lowestCarriageZ cfg p) (some (minAllowedCarriageZ cfg)) then p
  else
    { x := p.x
      y := p.y
      z := nadd p.z (nsub (some (minAllowedCarriageZ cfg)) (lowestCarriageZ cfg p)) }

/-- `maxZ` of the vertical clamp in `constrainPosition`. -/
def constrainMaxZ (cfg : DeltaRobotConfig) : ℝ :=
  cfg.bot_height / 2 - cfg.arm_length - cfg.carriage_height / 2

/-- `minZ` of the vertical clamp in `constrainPosition`. -/
def constrainMinZ (cfg : DeltaRobotConfig) : ℝ :=
  -(cfg.bot_height / 2) + EFFECTOR_HEIGHT / 2

/-- The radial + vertical clamp stage of `DeltaCalculations.constrainPosition`
(everything before `applyCarriageConstraints`).  In the radial branch the
source computes `sin(atan2(x, y)) * R` and `cos(atan2(x, y)) * R`; we embed
the mathematically equal `x / d * R` and `y / d * R` (the branch guarantees
`d > R ≥ 0`, so `d > 0`, where `sin(atan2(x, y)) = x / hypot(x, y)` and
`cos(atan2(x, y)) = y / hypot(x, y)`). -/
def constrainPositionClamp (cfg : DeltaRobotConfig) (bc : BuildVolumeConfig)
    (p : PosN) : PosN :=
  let constraintRadius := (calculateBuildVolume cfg bc).maxPrintRadius
  let horizontalDistance := Real.sqrt (p.x ^ 2 + p.y ^ 2)
  let constrainedX :=
    if horizontalDistance > constraintRadius then
      p.x / horizontalDistance * constraintRadius
    else p.x
  let constrainedY :=
    if horizontalDistance > constraintRadius then
      p.y / horizontalDistance * constraintRadius
    else p.y
  { x := constrainedX, y := constrainedY
    z := nclamp p.z (constrainMinZ cfg) (constrainMaxZ cfg) }

/-- `DeltaCalculations.constrainPosition`. -/
def constrainPosition (cfg : DeltaRobotConfig) (bc : BuildVolumeConfig)
    (p : PosN) : PosN :=
  applyCarriageConstraints cfg (constrainPositionClamp cfg bc p)

/-! ### Basic evaluation lemmas -/

lemma towerAngle_zero : towerAngle 0 = π / 3 := by
  simp [towerAngle]; ring

lemma towerAngle_one : towerAngle 1 = π := by
  simp [towerAngle]; ring

lemma towerAngle_two : towerAngle 2 = 2 * π - π / 3 := by
  simp [towerAngle]; ring

lemma sin_towerAngle_zero : Real.sin (towerAngle 0) = Real.sqrt 3 / 2 := by
  rw [towerAngle_zero, Real.sin_pi_div_three]

lemma cos_towerAngle_zero : Real.cos (towerAngle 0) = 1 / 2 := by
  rw [towerAngle_zero, Real.cos_pi_div_three]

lemma sin_towerAngle_one : Real.sin (towerAngle 1) = 0 := by
  rw [towerAngle_one, Real.sin_pi]

lemma cos_towerAngle_one : Real.cos (towerAngle 1) = -1 := by
  rw [towerAngle_one, Real.cos_pi]

lemma sin_towerAngle_two : Real.sin (towerAngle 2) = -(Real.sqrt 3 / 2) := by
  rw [towerAngle_two, Real.sin_two_pi_sub, Real.sin_pi_div_three]

lemma cos_towerAngle_two : Real.cos (towerAngle 2) = 1 / 2 := by
  rw [towerAngle_two, Real.cos_two_pi_sub, Real.cos_pi_div_three]

/-- `calculateArmPosition` in its `centerOnly` use (`armIndex = 2 * towerIndex`,
`spacing = 0`) reduces to the tower center direction at the given radius. -/
lemma calculateArmPosition_center (i : ℕ) (radius : ℝ) :
    calculateArmPosition (i * 2) radius 0 true =
      { x := Real.sin (towerAngle i) * radius, y := 0
        z := Real.cos (towerAngle i) * radius } := by
  have hdiv : i * 2 / 2 = i := Nat.mul_div_cancel i (by norm_num)
  simp [calculateArmPosition, hdiv]

lemma carriageHDistSq_eq (cfg : DeltaRobotConfig) (px py : ℝ) (i : ℕ) :
    carriageHDistSq cfg px py i =
      (Real.sin (towerAngle i) * (cfg.bot_radius - cfg.effector_radius) - px) ^ 2 +
        py ^ 2 := by
  simp only [carriageHDistSq, calculateArmPosition_center, calculateTowerPosition]
  ring

/-- Closed form of one inverse-kinematics solve of
`calculateCarriagePositions`. -/
lemma carriageZ_eval (cfg : DeltaRobotConfig) (p : PosN) (i : ℕ) :
    carriageZ cfg p i =
      (if cfg.arm_length ^ 2 -
            ((Real.sin (towerAngle i) * (cfg.bot_radius - cfg.effector_radius) -
                p.x) ^ 2 + p.y ^ 2) < 0 then none
       else p.z.map fun w =>
        w + Real.cos (towerAngle i) * cfg.effector_radius +
          Real.sqrt (cfg.arm_length ^ 2 -
            ((Real.sin (towerAngle i) * (cfg.bot_radius - cfg.effector_radius) -
                p.x) ^ 2 + p.y ^ 2))) := by
  simp only [carriageZ, calculateArmPosition_center, carriageHDistSq_eq]

/-- For the Kossel-standard preset, `calculateOptimalArmLength` evaluates to
`195*2 - 40*2 - 25 + 30 = 315` (neither the vertical cap nor the stability
floor fires). -/
lemma optimalArmLength_kosselStandard :
    calculateOptimalArmLength kosselStandard = 315 := by
  simp only [calculateOptimalArmLength, kosselStandard]
  norm_num

/-- The Kossel-standard preset with `arm_length` recomputed by
`calculateOptimalArmLength`, the configuration of the spec's concrete
scenario. -/
def cfgKS315 : DeltaRobotConfig :=
  { kosselStandard with arm_length := calculateOptimalArmLength kosselStandard }

lemma cfgKS315_arm : cfgKS315.arm_length = 315 := optimalArmLength_kosselStandard

/-- The effector center position `{x: 0, y: 0, z: 0}`. -/
def posOrigin : PosN := { x := 0, y := 0, z := some 0 }

lemma carriageZ_KS315_origin_tower0 :
    carriageZ cfgKS315 posOrigin 0 = some (20 + Real.sqrt 81206.25) := by
  rw [carriageZ_eval]
  rw [sin_towerAngle_zero, cos_towerAngle_zero]
  have h3 : Real.sqrt 3 ^ 2 = 3 := Real.sq_sqrt (by norm_num)
  have harm : cfgKS315.arm_length = 315 := cfgKS315_arm
  have hbr : cfgKS315.bot_radius = 195 := rfl
  have her : cfgKS315.effector_radius = 40 := rfl
  have hx : posOrigin.x = 0 := rfl
  have hy : posOrigin.y = 0 := rfl
  have hz : posOrigin.z = some 0 := rfl
  rw [harm, hbr, her, hx, hy, hz]
  have hexp : (315 : ℝ) ^ 2 - ((Real.sqrt 3 / 2 * (195 - 40) - 0) ^ 2 + 0 ^ 2) =
      81206.25 := by
    have : (Real.sqrt 3 / 2 * (195 - 40) - 0) ^ 2 + (0:ℝ) ^ 2 =
        Real.sqrt 3 ^ 2 * (155 ^ 2 / 4) := by ring
    rw [this, h3]; norm_num
  rw [hexp, if_neg (by norm_num)]
  simp only [Option.map_some']
  norm_num

lemma carriageZ_KS315_origin_tower1 :
    carriageZ cfgKS315 posOrigin 1 = some 275 := by
  rw [carriageZ_eval]
  rw [sin_towerAngle_one, cos_towerAngle_one]
  have harm : cfgKS315.arm_length = 315 := cfgKS315_arm
  have her : cfgKS315.effector_radius = 40 := rfl
  have hx : posOrigin.x = 0 := rfl
  have hy : posOrigin.y = 0 := rfl
  have hz : posOrigin.z = some 0 := rfl
  rw [harm, her, hx, hy, hz]
  have hexp : (315 : ℝ) ^ 2 -
      ((0 * (cfgKS315.bot_radius - 40) - 0) ^ 2 + 0 ^ 2) =
      99225 := by norm_num
  rw [hexp, if_neg (by norm_num)]
  have hsqrt : Real.sqrt 99225 = 315 := by
    rw [show (99225 : ℝ) = 315 ^ 2 by norm_num]
    exact Real.sqrt_sq (by norm_num)
  simp only [Option.map_some', hsqrt]
  norm_num

/-- **C1.** With the Kossel-standard preset (and `arm_length` recomputed via
`calculateOptimalArmLength`, giving 315), `calculateCarriagePositions` at the
symmetric center `{x:0, y:0, z:0}` does NOT return three equal values: the
code measures the horizontal IK distance in the `(x, y)` plane while
`GeometryUtils` lays the towers and effector nubs out in the `(x, z)` plane,
so tower 0 yields `20 + √81206.25 ≈ 304.97` but tower 1 yields `275`.  This
contradicts the spec's concrete scenario (the axis-convention drift the spec
flags in §9). -/
theorem C1_center_carriages_unequal :
    carriageZ cfgKS315 posOrigin 0 ≠ carriageZ cfgKS315 posOrigin 1 := by
  rw [carriageZ_KS315_origin_tower0, carriageZ_KS315_origin_tower1]
  intro h
  have h1 : (20 : ℝ) + Real.sqrt 81206.25 = 275 := by injection h
  have h2 : Real.sqrt 81206.25 ^ 2 = 81206.25 := Real.sq_sqrt (by norm_num)
  nlinarith [h2]

/-- **C8.** `calculateTowerPosition` places tower 0 at angle `PI2/6 = 60°`
from the reference axis, not at the `30°` its own comment (and the spec)
state: at radius 2 the returned point is `(2·sin 60°, 0, 2·cos 60°)`, and its
first coordinate differs from `2·sin 30°`.  (The 120° spacing between
successive towers is unaffected by the offset.) -/
theorem C8_tower_position_at_60_degrees :
    calculateTowerPosition 0 2 =
      { x := 2 * Real.sin (π / 3), y := 0, z := 2 * Real.cos (π / 3) } ∧
    (calculateTowerPosition 0 2).x ≠ 2 * Real.sin (π / 6) := by
  constructor
  · simp only [calculateTowerPosition, towerAngle_zero, Vec3.mk.injEq]
    exact ⟨by ring, trivial, by ring⟩
  · simp only [calculateTowerPosition, towerAngle_zero, Real.sin_pi_div_three,
      Real.sin_pi_div_six]
    have h : (1 : ℝ) < Real.sqrt 3 := by
      have h2 := Real.sqrt_lt_sqrt (by norm_num : (0:ℝ) ≤ 1) (by norm_num : (1:ℝ) < 3)
      rwa [Real.sqrt_one] at h2
    intro heq
    nlinarith [heq]

/-- **C3.** `calculateBuildVolume` never reads `physical_bed_radius`: two
build-volume configurations that differ only in the physical bed radius give
identical `maxPrintRadius`, `recommendedPrintRadius` and `buildVolumeHeight`
(the bed radius appears only in the display-only constraint-analysis list). -/
theorem C3_physical_bed_radius_ignored (cfg : DeltaRobotConfig)
    (ct : ConstraintType) (r₁ r₂ : ℝ) :
    (calculateBuildVolume cfg
        { physical_bed_radius := r₁, constraint_type := ct }).maxPrintRadius =
      (calculateBuildVolume cfg
        { physical_bed_radius := r₂, constraint_type := ct }).maxPrintRadius ∧
    (calculateBuildVolume cfg
        { physical_bed_radius := r₁, constraint_type := ct }).recommendedPrintRadius =
      (calculateBuildVolume cfg
        { physical_bed_radius := r₂, constraint_type := ct }).recommendedPrintRadius ∧
    (calculateBuildVolume cfg
        { physical_bed_radius := r₁, constraint_type := ct }).buildVolumeHeight =
      (calculateBuildVolume cfg
        { physical_bed_radius := r₂, constraint_type := ct }).buildVolumeHeight :=
  ⟨rfl, rfl, rfl⟩

/-! ### Numeric helper lemmas -/

lemma sqrt3_sq : Real.sqrt 3 ^ 2 = 3 := Real.sq_sqrt (by norm_num)

lemma sqrt3_lt_two : Real.sqrt 3 < 2 := by
  have h := Real.sqrt_lt_sqrt (by norm_num : (0:ℝ) ≤ 3) (by norm_num : (3:ℝ) < 4)
  rwa [show (4:ℝ) = 2 ^ 2 by norm_num, Real.sqrt_sq (by norm_num : (0:ℝ) ≤ 2)] at h

lemma sqrt_99225 : Real.sqrt 99225 = 315 := by
  rw [show (99225 : ℝ) = 315 ^ 2 by norm_num]
  exact Real.sqrt_sq (by norm_num)

lemma minCarriageZ_KS315 : minCarriageZ cfgKS315 = -245 := by
  show -(520 / 2 : ℝ) + 30 / 2 = -245
  norm_num

lemma maxCarriageZ_KS315 : maxCarriageZ cfgKS315 = 245 := by
  show (520 / 2 : ℝ) - 30 / 2 = 245
  norm_num

/-- **C7.** With the `effector-edge` constraint type and the calculator's
default collision margin (10mm), `calculateRealBuildPlateRadius` is exactly
`max(0, min((bot_radius - rod_radius) - effector_radius - 10,
carriageConstrainedRadius))`. -/
theorem C7_effector_edge_formula (cfg : DeltaRobotConfig) :
    defaultTowerCollisionOffset = 10 ∧
    calculateRealBuildPlateRadius cfg ConstraintType.effectorEdge
        defaultTowerCollisionOffset =
      max 0 (min ((cfg.bot_radius - cfg.rod_radius) - cfg.effector_radius - 10)
        (calculateCarriageConstrainedRadius cfg)) :=
  ⟨rfl, rfl⟩

/-! ### C2: reachability -/

/-- **C2 (amended).** `is_reachable` as computed by `validatePosition` is true
iff all three carriage positions are finite (not `NaN`) and lie within
`[-bot_height/2 + carriage_height/2, bot_height/2 - carriage_height/2]`; in
particular any position whose code-measured horizontal distance (tower anchor
to effector *nub*, in the `(x, y)` plane) exceeds `arm_length` for some tower
is unreachable.  (The claim's version — distance from the tower anchor to the
*effector position* — is refuted by `C2_counterexample`.) -/
theorem C2_is_reachable_characterization (cfg : DeltaRobotConfig) (p : PosN) :
    (isReachable cfg p ↔
      (∀ i < 3, ∃ z, carriageZ cfg p i = some z ∧
        -(cfg.bot_height / 2) + cfg.carriage_height / 2 ≤ z ∧
        z ≤ cfg.bot_height / 2 - cfg.carriage_height / 2)) ∧
    ((∃ i < 3, cfg.arm_length ^ 2 < carriageHDistSq cfg p.x p.y i) →
      ¬ isReachable cfg p) := by
  constructor
  · constructor
    · intro h i hi
      interval_cases i <;>
        [exact h _ (by simp [calculateCarriagePositions]);
         exact h _ (by simp [calculateCarriagePositions]);
         exact h _ (by simp [calculateCarriagePositions])]
    · intro h c hc
      simp only [calculateCarriagePositions, List.mem_cons, List.not_mem_nil,
        or_false] at hc
      rcases hc with hc | hc | hc <;> subst hc
      · exact h 0 (by norm_num)
      · exact h 1 (by norm_num)
      · exact h 2 (by norm_num)
  · rintro ⟨i, hi3, hfar⟩ hreach
    have hnone : carriageZ cfg p i = none := by
      simp only [carriageZ]
      rw [if_pos (by linarith)]
    have hmem : carriageZ cfg p i ∈ calculateCarriagePositions cfg p := by
      interval_cases i <;> simp [calculateCarriagePositions]
    obtain ⟨z, hz, -, -⟩ := hreach _ hmem
    rw [hnone] at hz
    exact Option.noConfusion hz

/-- Witness for `C2_is_reachable_characterization`: with the Kossel-standard
preset (arm 315), the position `(400, 0, 0)` is beyond tower 1's reach
(horizontal nub distance `400 > 315`), so it is not reachable. -/
theorem C2_is_reachable_characterization_witness :
    ¬ isReachable cfgKS315 { x := 400, y := 0, z := some 0 } := by
  refine (C2_is_reachable_characterization cfgKS315 _).2 ⟨1, by norm_num, ?_⟩
  rw [carriageHDistSq_eq, sin_towerAngle_one, cfgKS315_arm]
  norm_num

/-- The C2 counterexample position. -/
def posC2 : PosN := { x := -160, y := 0, z := some (-100) }

lemma carriageZ_C2_tower0 :
    carriageZ cfgKS315 posC2 0 =
      some (-80 + Real.sqrt (99225 - (77.5 * Real.sqrt 3 + 160) ^ 2)) := by
  rw [carriageZ_eval, sin_towerAngle_zero, cos_towerAngle_zero]
  have harm : cfgKS315.arm_length = 315 := cfgKS315_arm
  have hbr : cfgKS315.bot_radius = 195 := rfl
  have her : cfgKS315.effector_radius = 40 := rfl
  have hx : posC2.x = -160 := rfl
  have hy : posC2.y = 0 := rfl
  have hz : posC2.z = some (-100) := rfl
  rw [harm, hbr, her, hx, hy, hz]
  have hexp : (315 : ℝ) ^ 2 - ((Real.sqrt 3 / 2 * (195 - 40) - -160) ^ 2 + 0 ^ 2) =
      99225 - (77.5 * Real.sqrt 3 + 160) ^ 2 := by ring
  rw [hexp]
  rw [if_neg (by nlinarith [sqrt3_sq, sqrt3_lt_two, Real.sqrt_nonneg 3])]
  simp only [Option.map_some']
  norm_num

lemma carriageZ_C2_tower1 :
    carriageZ cfgKS315 posC2 1 = some (-140 + Real.sqrt 73625) := by
  rw [carriageZ_eval, sin_towerAngle_one, cos_towerAngle_one]
  have harm : cfgKS315.arm_length = 315 := cfgKS315_arm
  have her : cfgKS315.effector_radius = 40 := rfl
  have hx : posC2.x = -160 := rfl
  have hy : posC2.y = 0 := rfl
  have hz : posC2.z = some (-100) := rfl
  rw [harm, her, hx, hy, hz]
  have hexp : (315 : ℝ) ^ 2 -
      ((0 * (cfgKS315.bot_radius - 40) - -160) ^ 2 + 0 ^ 2) = 73625 := by
    norm_num
  rw [hexp, if_neg (by norm_num)]
  simp only [Option.map_some']
  norm_num

lemma carriageZ_C2_tower2 :
    carriageZ cfgKS315 posC2 2 =
      some (-80 + Real.sqrt (99225 - (160 - 77.5 * Real.sqrt 3) ^ 2)) := by
  rw [carriageZ_eval, sin_towerAngle_two, cos_towerAngle_two]
  have harm : cfgKS315.arm_length = 315 := cfgKS315_arm
  have hbr : cfgKS315.bot_radius = 195 := rfl
  have her : cfgKS315.effector_radius = 40 := rfl
  have hx : posC2.x = -160 := rfl
  have hy : posC2.y = 0 := rfl
  have hz : posC2.z = some (-100) := rfl
  rw [harm, hbr, her, hx, hy, hz]
  have hexp : (315 : ℝ) ^ 2 -
      ((-(Real.sqrt 3 / 2) * (195 - 40) - -160) ^ 2 + 0 ^ 2) =
      99225 - (160 - 77.5 * Real.sqrt 3) ^ 2 := by ring
  rw [hexp]
  rw [if_neg (by nlinarith [sqrt3_sq, sqrt3_lt_two, Real.sqrt_nonneg 3])]
  simp only [Option.map_some']
  norm_num

/-- **C2 (counterexample).** Under the Kossel-standard preset (arm 315), the
effector position `(-160, 0, -100)` has horizontal distance
`160 + 97.5·√3 ≈ 328.9 > 315` from tower 0's anchor, yet `validatePosition`
reports it reachable (the nub sits `effector_radius` closer to the tower, so
the carriage solve succeeds and all three carriages are in range).  This
refutes the claim that anchor distance `> arm_length` forces
`is_reachable = false`. -/
theorem C2_counterexample :
    Real.sqrt (((calculateTowerPosition 0 cfgKS315.bot_radius).x - posC2.x) ^ 2 +
        ((calculateTowerPosition 0 cfgKS315.bot_radius).y - posC2.y) ^ 2) >
      cfgKS315.arm_length ∧
    isReachable cfgKS315 posC2 := by
  have h3 := sqrt3_sq
  have h3nn := Real.sqrt_nonneg 3
  have h3lt := sqrt3_lt_two
  constructor
  · have hx : (calculateTowerPosition 0 cfgKS315.bot_radius).x =
        Real.sqrt 3 / 2 * 195 := by
      show Real.sin (towerAngle 0) * cfgKS315.bot_radius = _
      rw [sin_towerAngle_zero, show cfgKS315.bot_radius = (195:ℝ) from rfl]
    have hy : (calculateTowerPosition 0 cfgKS315.bot_radius).y = 0 := rfl
    have hpx : posC2.x = -160 := rfl
    have hpy : posC2.y = 0 := rfl
    rw [hx, hy, hpx, hpy, cfgKS315_arm]
    have hsq : (Real.sqrt 3 / 2 * 195 - -160) ^ 2 + ((0:ℝ) - 0) ^ 2 =
        (97.5 * Real.sqrt 3 + 160) ^ 2 := by ring
    rw [hsq, Real.sqrt_sq (by positivity)]
    nlinarith [h3, h3nn]
  · intro c hc
    simp only [calculateCarriagePositions, List.mem_cons, List.not_mem_nil,
      or_false] at hc
    have hmin := minCarriageZ_KS315
    have hmax := maxCarriageZ_KS315
    have hs315 : Real.sqrt 99225 = 315 := sqrt_99225
    rcases hc with hc | hc | hc <;> subst hc
    · rw [carriageZ_C2_tower0]
      refine ⟨_, rfl, ?_, ?_⟩
      · rw [hmin]
        nlinarith [Real.sqrt_nonneg (99225 - (77.5 * Real.sqrt 3 + 160) ^ 2)]
      · rw [hmax]
        have hle : Real.sqrt (99225 - (77.5 * Real.sqrt 3 + 160) ^ 2) ≤
            Real.sqrt 99225 :=
          Real.sqrt_le_sqrt (by nlinarith)
        rw [hs315] at hle
        linarith
    · rw [carriageZ_C2_tower1]
      refine ⟨_, rfl, ?_, ?_⟩
      · rw [hmin]
        nlinarith [Real.sqrt_nonneg (73625 : ℝ)]
      · rw [hmax]
        have hle : Real.sqrt 73625 ≤ Real.sqrt 99225 :=
          Real.sqrt_le_sqrt (by norm_num)
        rw [hs315] at hle
        linarith
    · rw [carriageZ_C2_tower2]
      refine ⟨_, rfl, ?_, ?_⟩
      · rw [hmin]
        nlinarith [Real.sqrt_nonneg (99225 - (160 - 77.5 * Real.sqrt 3) ^ 2)]
      · rw [hmax]
        have hle : Real.sqrt (99225 - (160 - 77.5 * Real.sqrt 3) ^ 2) ≤
            Real.sqrt 99225 :=
          Real.sqrt_le_sqrt (by nlinarith)
        rw [hs315] at hle
        linarith

/-! ### The carriage-constrained-radius search (C5, C6) -/

/-- In the radial search every tower's inverse-kinematics solve simplifies:
the effector test point and the carriage attachment are rotated by the same
tower angle, so the horizontal distance is `|bot_radius - carriage_inset - ρ|`
independent of the tower. -/
lemma calculateRequiredCarriageY_radial (cfg : DeltaRobotConfig) (i : ℕ)
    (ρ ey : ℝ) :
    calculateRequiredCarriageY cfg i (ρ * Real.cos (bpcTowerAngle i)) ey
        (ρ * Real.sin (bpcTowerAngle i)) =
      (if (cfg.bot_radius - cfg.carriage_inset - ρ) ^ 2 >
          cfg.arm_length * cfg.arm_length then none
       else some (ey + Real.sqrt (cfg.arm_length * cfg.arm_length -
          (cfg.bot_radius - cfg.carriage_inset - ρ) ^ 2))) := by
  simp only [calculateRequiredCarriageY]
  have key : ((cfg.bot_radius - cfg.carriage_inset) * Real.cos (bpcTowerAngle i) -
        ρ * Real.cos (bpcTowerAngle i)) *
       ((cfg.bot_radius - cfg.carriage_inset) * Real.cos (bpcTowerAngle i) -
        ρ * Real.cos (bpcTowerAngle i)) +
      ((cfg.bot_radius - cfg.carriage_inset) * Real.sin (bpcTowerAngle i) -
        ρ * Real.sin (bpcTowerAngle i)) *
       ((cfg.bot_radius - cfg.carriage_inset) * Real.sin (bpcTowerAngle i) -
        ρ * Real.sin (bpcTowerAngle i)) =
      (cfg.bot_radius - cfg.carriage_inset - ρ) ^ 2 := by
    have hsc := Real.sin_sq_add_cos_sq (bpcTowerAngle i)
    have expand : ((cfg.bot_radius - cfg.carriage_inset) * Real.cos (bpcTowerAngle i) -
          ρ * Real.cos (bpcTowerAngle i)) *
         ((cfg.bot_radius - cfg.carriage_inset) * Real.cos (bpcTowerAngle i) -
          ρ * Real.cos (bpcTowerAngle i)) +
        ((cfg.bot_radius - cfg.carriage_inset) * Real.sin (bpcTowerAngle i) -
          ρ * Real.sin (bpcTowerAngle i)) *
         ((cfg.bot_radius - cfg.carriage_inset) * Real.sin (bpcTowerAngle i) -
          ρ * Real.sin (bpcTowerAngle i)) =
        (cfg.bot_radius - cfg.carriage_inset - ρ) ^ 2 *
          (Real.sin (bpcTowerAngle i) ^ 2 + Real.cos (bpcTowerAngle i) ^ 2) := by
      ring
    rw [expand, hsc, mul_one]
  rw [key]

/-- Closed form of the per-radius feasibility test of the search: a radius is
feasible iff it is within arm reach of the carriage line and the solved
carriage height does not exceed the top of the rail travel. -/
lemma ccrFeasible_iff (cfg : DeltaRobotConfig) (ρ : ℝ) :
    ccrFeasible cfg ρ ↔
      ((cfg.bot_radius - cfg.carriage_inset - ρ) ^ 2 ≤
          cfg.arm_length * cfg.arm_length ∧
        ccrTestY cfg + Real.sqrt (cfg.arm_length * cfg.arm_length -
          (cfg.bot_radius - cfg.carriage_inset - ρ) ^ 2) ≤ maxCarriageY cfg) := by
  constructor
  · intro h
    obtain ⟨y, hy, -, hymax⟩ := h 0 (by norm_num)
    rw [calculateRequiredCarriageY_radial] at hy
    by_cases hreach : (cfg.bot_radius - cfg.carriage_inset - ρ) ^ 2 >
        cfg.arm_length * cfg.arm_length
    · rw [if_pos hreach] at hy
      exact absurd hy (by simp)
    · rw [if_neg hreach] at hy
      refine ⟨not_lt.1 hreach, ?_⟩
      obtain rfl : ccrTestY cfg + Real.sqrt (cfg.arm_length * cfg.arm_length -
          (cfg.bot_radius - cfg.carriage_inset - ρ) ^ 2) = y := by
        injection hy
      exact hymax
  · rintro ⟨hreach, hmax⟩ tower -
    refine ⟨ccrTestY cfg + Real.sqrt (cfg.arm_length * cfg.arm_length -
        (cfg.bot_radius - cfg.carriage_inset - ρ) ^ 2), ?_, ?_, hmax⟩
    · rw [calculateRequiredCarriageY_radial, if_neg (not_lt.2 hreach)]
    · have hnn := Real.sqrt_nonneg (cfg.arm_length * cfg.arm_length -
        (cfg.bot_radius - cfg.carriage_inset - ρ) ^ 2)
      simp only [ccrTestY]
      linarith

/-- The search loop returns its accumulator unchanged when the first
candidate already fails (guard or feasibility). -/
lemma ccrGo_none (cfg : DeltaRobotConfig) (fuel k : ℕ) (m : ℝ)
    (h : ¬ ((5 * (k:ℝ) ≤ cfg.bot_radius + 50) ∧ ccrFeasible cfg (5 * k))) :
    ccrGo cfg fuel k m = m := by
  cases fuel with
  | zero => rfl
  | succ fuel =>
    rw [ccrGo]
    by_cases hg : (5 * (k:ℝ) ≤ cfg.bot_radius + 50)
    · rw [if_pos hg, if_neg fun hf => h ⟨hg, hf⟩]
    · rw [if_neg hg]

/-- Running the search loop over a consecutive feasible prefix of length
`n + 1` starting at index `k` (with the candidate after the prefix failing)
returns the last radius of the prefix. -/
lemma ccrGo_run (cfg : DeltaRobotConfig) :
    ∀ (n fuel k : ℕ) (m : ℝ),
      (∀ j ≤ n, (5 * ((k + j : ℕ):ℝ) ≤ cfg.bot_radius + 50) ∧
        ccrFeasible cfg (5 * (k + j : ℕ))) →
      ¬ ((5 * ((k + n + 1 : ℕ):ℝ) ≤ cfg.bot_radius + 50) ∧
        ccrFeasible cfg (5 * (k + n + 1 : ℕ))) →
      n + 1 ≤ fuel →
      ccrGo cfg fuel k m = 5 * ((k + n : ℕ):ℝ) := by
  intro n
  induction n with
  | zero =>
    intro fuel k m h1 h2 hfuel
    obtain ⟨fuel, rfl⟩ : ∃ f, fuel = f + 1 :=
      ⟨fuel - 1, by omega⟩
    have hQ := h1 0 (le_refl 0)
    simp only [Nat.add_zero] at hQ h2 ⊢
    rw [ccrGo, if_pos hQ.1, if_pos hQ.2, ccrGo_none cfg fuel (k + 1) _ h2]
  | succ n ih =>
    intro fuel k m h1 h2 hfuel
    obtain ⟨fuel, rfl⟩ : ∃ f, fuel = f + 1 := ⟨fuel - 1, by omega⟩
    have hQ := h1 0 (Nat.zero_le _)
    simp only [Nat.add_zero] at hQ
    rw [ccrGo, if_pos hQ.1, if_pos hQ.2]
    have := ih fuel (k + 1) (5 * (k:ℝ))
      (fun j hj => by
        have := h1 (j + 1) (by omega)
        simpa [Nat.add_assoc, Nat.add_comm, Nat.add_left_comm] using this)
      (by
        intro hcon
        refine h2 ⟨?_, ?_⟩
        · have := hcon.1
          push_cast at this ⊢
          linarith
        · have := hcon.2
          have harg : (k + 1) + n + 1 = k + (n + 1) + 1 := by omega
          rwa [harg] at this)
      (by omega)
    rw [this]
    have harg : (k + 1) + n = k + (n + 1) := by omega
    rw [harg]

/-- Main characterization: if radii `0, 5, …, 5n` are all feasible (and
within the guard) while the next candidate `5(n+1)` fails, the search
returns `5n`. -/
lemma ccr_eq_of_run (cfg : DeltaRobotConfig) (n : ℕ)
    (h1 : ∀ k ≤ n, (5 * ((k:ℕ):ℝ) ≤ cfg.bot_radius + 50) ∧
      ccrFeasible cfg (5 * (k:ℕ)))
    (h2 : ¬ ((5 * ((n + 1 : ℕ):ℝ) ≤ cfg.bot_radius + 50) ∧
      ccrFeasible cfg (5 * (n + 1 : ℕ)))) :
    calculateCarriageConstrainedRadius cfg = 5 * (n:ℝ) := by
  rw [calculateCarriageConstrainedRadius]
  have hfuel : n + 1 ≤ Nat.floor ((cfg.bot_radius + 50) / 5) + 1 := by
    have hn := (h1 n (le_refl n)).1
    have : (n:ℝ) ≤ (cfg.bot_radius + 50) / 5 := by linarith
    have := Nat.le_floor this
    omega
  have := ccrGo_run cfg n (Nat.floor ((cfg.bot_radius + 50) / 5) + 1) 0 0
    (fun j hj => by simpa using h1 j hj)
    (by simpa using h2) hfuel
  simpa using this

/-- The search result is always `5 * j` for some natural `j` (in particular a
non-negative multiple of 5). -/
lemma ccrGo_mult_of_five (cfg : DeltaRobotConfig) :
    ∀ (fuel k : ℕ) (m : ℝ), (∃ j : ℕ, m = 5 * (j:ℝ)) →
      ∃ j : ℕ, ccrGo cfg fuel k m = 5 * (j:ℝ) := by
  intro fuel
  induction fuel with
  | zero => exact fun k m hm => hm
  | succ fuel ih =>
    intro k m hm
    rw [ccrGo]
    by_cases hg : (5 * (k:ℝ) ≤ cfg.bot_radius + 50)
    · rw [if_pos hg]
      by_cases hf : ccrFeasible cfg (5 * k)
      · rw [if_pos hf]
        exact ih (k + 1) _ ⟨k, rfl⟩
      · rw [if_neg hf]; exact hm
    · rw [if_neg hg]; exact hm

/-- The loop never returns less than its accumulator (provided the
accumulator is at most the current candidate radius, the loop invariant). -/
lemma ccrGo_ge (cfg : DeltaRobotConfig) :
    ∀ (fuel k : ℕ) (m : ℝ), m ≤ 5 * (k:ℝ) → m ≤ ccrGo cfg fuel k m := by
  intro fuel
  induction fuel with
  | zero => exact fun k m _ => le_refl m
  | succ fuel ih =>
    intro k m hm
    rw [ccrGo]
    by_cases hg : (5 * (k:ℝ) ≤ cfg.bot_radius + 50)
    · rw [if_pos hg]
      by_cases hf : ccrFeasible cfg (5 * k)
      · rw [if_pos hf]
        refine le_trans hm (ih (k + 1) _ ?_)
        push_cast
        linarith
      · rw [if_neg hf]
    · rw [if_neg hg]

/-- Pointwise stronger feasibility gives a pointwise larger search result. -/
lemma ccrGo_mono (cfg₁ cfg₂ : DeltaRobotConfig)
    (hbr : cfg₁.bot_radius = cfg₂.bot_radius)
    (hfeas : ∀ ρ, ccrFeasible cfg₁ ρ → ccrFeasible cfg₂ ρ) :
    ∀ (fuel k : ℕ) (m : ℝ), m ≤ 5 * (k:ℝ) →
      ccrGo cfg₁ fuel k m ≤ ccrGo cfg₂ fuel k m := by
  intro fuel
  induction fuel with
  | zero => exact fun k m _ => le_refl m
  | succ fuel ih =>
    intro k m hm
    rw [ccrGo, ccrGo, hbr]
    by_cases hg : (5 * (k:ℝ) ≤ cfg₂.bot_radius + 50)
    · rw [if_pos hg, if_pos hg]
      by_cases hf1 : ccrFeasible cfg₁ (5 * k)
      · rw [if_pos hf1, if_pos (hfeas _ hf1)]
        exact ih (k + 1) _ (by push_cast; linarith)
      · rw [if_neg hf1]
        by_cases hf2 : ccrFeasible cfg₂ (5 * k)
        · rw [if_pos hf2]
          exact le_trans hm (ccrGo_ge cfg₂ fuel (k + 1) _ (by push_cast; linarith))
        · rw [if_neg hf2]
    · rw [if_neg hg, if_neg hg]

/-- When both arm lengths stay below `bot_height - carriage_height - 50`
(so the solved carriage can never overshoot the top of the rail), a longer
arm keeps every feasible radius feasible. -/
lemma ccrFeasible_mono_arm (cfg : DeltaRobotConfig) (L₁ L₂ : ℝ) (h0 : 0 ≤ L₁)
    (h12 : L₁ ≤ L₂) (hB : L₂ ≤ cfg.bot_height - cfg.carriage_height - 50) :
    ∀ ρ, ccrFeasible { cfg with arm_length := L₁ } ρ →
      ccrFeasible { cfg with arm_length := L₂ } ρ := by
  intro ρ hf
  rw [ccrFeasible_iff] at hf ⊢
  have e1 : ({ cfg with arm_length := L₁ } : DeltaRobotConfig).arm_length = L₁ := rfl
  have e2 : ({ cfg with arm_length := L₂ } : DeltaRobotConfig).arm_length = L₂ := rfl
  have e3 : ({ cfg with arm_length := L₁ } : DeltaRobotConfig).bot_radius =
    cfg.bot_radius := rfl
  have e4 : ({ cfg with arm_length := L₂ } : DeltaRobotConfig).bot_radius =
    cfg.bot_radius := rfl
  have e5 : ({ cfg with arm_length := L₁ } : DeltaRobotConfig).carriage_inset =
    cfg.carriage_inset := rfl
  have e6 : ({ cfg with arm_length := L₂ } : DeltaRobotConfig).carriage_inset =
    cfg.carriage_inset := rfl
  have e7 : ccrTestY { cfg with arm_length := L₁ } = ccrTestY cfg := rfl
  have e8 : ccrTestY { cfg with arm_length := L₂ } = ccrTestY cfg := rfl
  have e9 : maxCarriageY { cfg with arm_length := L₁ } = maxCarriageY cfg := rfl
  have e10 : maxCarriageY { cfg with arm_length := L₂ } = maxCarriageY cfg := rfl
  rw [e1, e3, e5, e7, e9] at hf
  rw [e2, e4, e6, e8, e10]
  obtain ⟨hreach, -⟩ := hf
  have hL2 : 0 ≤ L₂ := le_trans h0 h12
  constructor
  · nlinarith
  · have hs : Real.sqrt (L₂ * L₂ -
        (cfg.bot_radius - cfg.carriage_inset - ρ) ^ 2) ≤ L₂ := by
      have h1 : L₂ * L₂ - (cfg.bot_radius - cfg.carriage_inset - ρ) ^ 2 ≤
          L₂ ^ 2 := by nlinarith [sq_nonneg (cfg.bot_radius - cfg.carriage_inset - ρ)]
      calc Real.sqrt (L₂ * L₂ - (cfg.bot_radius - cfg.carriage_inset - ρ) ^ 2) ≤
            Real.sqrt (L₂ ^ 2) := Real.sqrt_le_sqrt h1
        _ = L₂ := Real.sqrt_sq hL2
    have hty : ccrTestY cfg = minCarriageY cfg + 50 := rfl
    have hmm : maxCarriageY cfg - minCarriageY cfg =
        cfg.bot_height - cfg.carriage_height := by
      simp only [maxCarriageY, minCarriageY]
      ring
    linarith

/-- **C5 (amended).** `calculateCarriageConstrainedRadius` is monotone
non-decreasing in `arm_length` whenever both arm lengths are at most
`bot_height - carriage_height - 50` (so the upper carriage-travel bound can
never be the binding constraint).  Without that proviso the claim is false:
see `C5_counterexample`, where a longer arm pushes the carriage above the top
of the rail at small radii and the search collapses to 0. -/
theorem C5_ccr_arm_monotone (cfg : DeltaRobotConfig) (L₁ L₂ : ℝ) (h0 : 0 ≤ L₁)
    (h12 : L₁ ≤ L₂) (hB : L₂ ≤ cfg.bot_height - cfg.carriage_height - 50) :
    calculateCarriageConstrainedRadius { cfg with arm_length := L₁ } ≤
      calculateCarriageConstrainedRadius { cfg with arm_length := L₂ } := by
  rw [calculateCarriageConstrainedRadius, calculateCarriageConstrainedRadius]
  exact ccrGo_mono { cfg with arm_length := L₁ } { cfg with arm_length := L₂ }
    rfl (ccrFeasible_mono_arm cfg L₁ L₂ h0 h12 hB) _ 0 0 (by norm_num)

/-- Configuration family for the C5 counterexample and the C6 witness:
`bot_radius = 30`, `carriage_inset = 25` (so the carriage line sits at radius
5), `bot_height = 55`, `carriage_height = 0` (so the solved carriage may rise
at most 5mm above the test height), parametrized by the arm length. -/
def cfgC5 (arm : ℝ) : DeltaRobotConfig where
  rod_radius := 4
  bot_radius := 30
  bot_height := 55
  rod_spacing := 30
  eff_spacing := 30
  arm_length := arm
  arm_radius := 2.5
  effector_radius := 40
  carriage_inset := 25
  carriage_height := 0
  carriage_offset := 0
  tower_offset := 25
  diagonal_rod_length := 240

lemma ccrTestY_cfgC5 (arm : ℝ) : ccrTestY (cfgC5 arm) = 22.5 := by
  show -((55:ℝ) / 2) + 0 / 2 + 50 = 22.5
  norm_num

lemma maxCarriageY_cfgC5 (arm : ℝ) : maxCarriageY (cfgC5 arm) = 27.5 := by
  show (55:ℝ) / 2 - 0 / 2 = 27.5
  norm_num

/-- With arm length 5, the radii 0, 5, 10 are all feasible. -/
lemma cfgC5_arm5_prefix :
    ∀ k ≤ 2, (5 * ((k:ℕ):ℝ) ≤ (cfgC5 5).bot_radius + 50) ∧
      ccrFeasible (cfgC5 5) (5 * (k:ℕ)) := by
  intro k hk
  have e1 : (cfgC5 5).bot_radius = 30 := rfl
  have e2 : (cfgC5 5).carriage_inset = 25 := rfl
  have e3 : (cfgC5 5).arm_length = 5 := rfl
  constructor
  · rw [e1]
    have : (k:ℝ) ≤ 2 := by exact_mod_cast hk
    linarith
  · rw [ccrFeasible_iff, e1, e2, e3, ccrTestY_cfgC5, maxCarriageY_cfgC5]
    interval_cases k
    · constructor
      · push_cast; norm_num
      · rw [show (5:ℝ) * 5 - (30 - 25 - 5 * ((0:ℕ):ℝ)) ^ 2 = 0 by push_cast; ring,
          Real.sqrt_zero]
        norm_num
    · constructor
      · push_cast; norm_num
      · rw [show (5:ℝ) * 5 - (30 - 25 - 5 * ((1:ℕ):ℝ)) ^ 2 = 25 by push_cast; ring,
          show Real.sqrt 25 = 5 by
            rw [show (25:ℝ) = 5 ^ 2 by norm_num]
            exact Real.sqrt_sq (by norm_num)]
        norm_num
    · constructor
      · push_cast; norm_num
      · rw [show (5:ℝ) * 5 - (30 - 25 - 5 * ((2:ℕ):ℝ)) ^ 2 = 0 by push_cast; ring,
          Real.sqrt_zero]
        norm_num

/-- With arm length 5, radius 15 is out of reach (`|5 - 15| = 10 > 5`). -/
lemma cfgC5_arm5_fail :
    ¬ ((5 * ((2 + 1 : ℕ):ℝ) ≤ (cfgC5 5).bot_radius + 50) ∧
      ccrFeasible (cfgC5 5) (5 * (2 + 1 : ℕ))) := by
  rintro ⟨-, hf⟩
  rw [ccrFeasible_iff] at hf
  have e1 : (cfgC5 5).bot_radius = 30 := rfl
  have e2 : (cfgC5 5).carriage_inset = 25 := rfl
  have e3 : (cfgC5 5).arm_length = 5 := rfl
  rw [e1, e2, e3] at hf
  have := hf.1
  push_cast at this
  norm_num at this

/-- With arm length 8, already radius 0 is infeasible: the carriage solve
gives `22.5 + √39 ≈ 28.75 > 27.5`. -/
lemma cfgC5_arm8_zero_infeasible :
    ¬ ((5 * ((0:ℕ):ℝ) ≤ (cfgC5 8).bot_radius + 50) ∧
      ccrFeasible (cfgC5 8) (5 * (0:ℕ))) := by
  rintro ⟨-, hf⟩
  rw [ccrFeasible_iff] at hf
  have e1 : (cfgC5 8).bot_radius = 30 := rfl
  have e2 : (cfgC5 8).carriage_inset = 25 := rfl
  have e3 : (cfgC5 8).arm_length = 8 := rfl
  rw [e1, e2, e3, ccrTestY_cfgC5, maxCarriageY_cfgC5] at hf
  have harg : (8:ℝ) * 8 - (30 - 25 - 5 * ((0:ℕ):ℝ)) ^ 2 = 39 := by
    push_cast; ring
  rw [harg] at hf
  have h39 : (5:ℝ) < Real.sqrt 39 := by
    rw [Real.lt_sqrt (by norm_num)]
    norm_num
  have := hf.2
  linarith

/-- **C5 (counterexample).** Shorter arms can yield a strictly larger
carriage-constrained radius: with `bot_radius = 30`, `carriage_inset = 25`,
`bot_height = 55`, `carriage_height = 0`, arm length 5 gives radius 10 while
the longer arm 8 gives radius 0 (its carriage solve at radius 0 already
overshoots the rail top: `22.5 + √39 > 27.5`). -/
theorem C5_counterexample :
    (cfgC5 5).arm_length < (cfgC5 8).arm_length ∧
    calculateCarriageConstrainedRadius (cfgC5 8) <
      calculateCarriageConstrainedRadius (cfgC5 5) := by
  constructor
  · show (5:ℝ) < 8
    norm_num
  · have h5 : calculateCarriageConstrainedRadius (cfgC5 5) = 5 * ((2:ℕ):ℝ) :=
      ccr_eq_of_run (cfgC5 5) 2 cfgC5_arm5_prefix cfgC5_arm5_fail
    have h8 : calculateCarriageConstrainedRadius (cfgC5 8) = 0 := by
      rw [calculateCarriageConstrainedRadius]
      exact ccrGo_none _ _ 0 0 cfgC5_arm8_zero_infeasible
    rw [h5, h8]
    norm_num

/-- Witness for `C5_ccr_arm_monotone` at the concrete configuration
`cfgC5` with arm lengths 1 and 2 (both below `55 - 0 - 50 = 5`). -/
theorem C5_ccr_arm_monotone_witness :
    (0:ℝ) ≤ 1 ∧
    calculateCarriageConstrainedRadius { cfgC5 5 with arm_length := (1:ℝ) } ≤
      calculateCarriageConstrainedRadius { cfgC5 5 with arm_length := (2:ℝ) } :=
  ⟨by norm_num,
   C5_ccr_arm_monotone (cfgC5 5) 1 2 (by norm_num) (by norm_num)
     (by show (2:ℝ) ≤ 55 - 0 - 50; norm_num)⟩

/-- **C6.** `calculateCarriageConstrainedRadius` is exactly the bounded
radial search the claim describes: (a) if candidates `0, 5, …, 5n` are all
within the `bot_radius + 50` guard and feasible for all three towers while
candidate `5(n+1)` fails (by guard, `NaN` carriage, or out-of-range
carriage), the result is `5n` — the last radius of the consecutive feasible
prefix, no later radius being examined; (b) if radius 0 already fails the
result is 0; (c) the result is always a non-negative multiple of 5, and the
search is a total function (it terminates by construction of `ccrGo`). -/
theorem C6_ccr_search_characterization (cfg : DeltaRobotConfig) :
    (∀ n : ℕ,
      (∀ k ≤ n, (5 * ((k:ℕ):ℝ) ≤ cfg.bot_radius + 50) ∧
        ccrFeasible cfg (5 * (k:ℕ))) →
      ¬ ((5 * ((n + 1 : ℕ):ℝ) ≤ cfg.bot_radius + 50) ∧
        ccrFeasible cfg (5 * (n + 1 : ℕ))) →
      calculateCarriageConstrainedRadius cfg = 5 * (n:ℝ)) ∧
    (¬ ((5 * ((0:ℕ):ℝ) ≤ cfg.bot_radius + 50) ∧ ccrFeasible cfg (5 * (0:ℕ))) →
      calculateCarriageConstrainedRadius cfg = 0) ∧
    (∃ m : ℕ, calculateCarriageConstrainedRadius cfg = 5 * (m:ℝ)) := by
  refine ⟨fun n h1 h2 => ccr_eq_of_run cfg n h1 h2, fun h0 => ?_, ?_⟩
  · rw [calculateCarriageConstrainedRadius]
    exact ccrGo_none cfg _ 0 0 h0
  · rw [calculateCarriageConstrainedRadius]
    exact ccrGo_mult_of_five cfg _ 0 0 ⟨0, by norm_num⟩

/-- Witness for `C6_ccr_search_characterization`: on `cfgC5` with arm 5 the
prefix `0, 5, 10` is feasible and 15 is not, so the search returns 10. -/
theorem C6_ccr_search_characterization_witness :
    calculateCarriageConstrainedRadius (cfgC5 5) = 5 * ((2:ℕ):ℝ) :=
  (C6_ccr_search_characterization (cfgC5 5)).1 2 cfgC5_arm5_prefix cfgC5_arm5_fail

/-! ### constrainPosition: helper lemmas (C4, C9, C10) -/

lemma nmin_none_left (b : Option ℝ) : nmin none b = none := by
  cases b <;> rfl

lemma nmin_none_right (a : Option ℝ) : nmin a none = none := by
  cases a <;> rfl

lemma nadd_none_right (a : Option ℝ) : nadd a none = none := by
  cases a <;> rfl

lemma nsub_none_right (a : Option ℝ) : nsub a none = none := by
  cases a <;> rfl

lemma nge_none_left (b : Option ℝ) : ¬ nge none b := by
  rintro ⟨u, v, hu, -, -⟩
  exact Option.noConfusion hu

lemma nge_some_some (a b : ℝ) : nge (some a) (some b) ↔ b ≤ a := by
  constructor
  · rintro ⟨u, v, hu, hv, huv⟩
    obtain rfl : a = u := by injection hu
    obtain rfl : b = v := by injection hv
    exact huv
  · exact fun h => ⟨a, b, rfl, rfl, h⟩

/-- `clamp` (as `max lo (min hi ·)`) is idempotent, also when `hi < lo`. -/
lemma clamp_idem (lo hi w : ℝ) :
    max lo (min hi (max lo (min hi w))) = max lo (min hi w) := by
  rcases le_total lo hi with h | h
  · have h1 : lo ≤ max lo (min hi w) := le_max_left _ _
    have h2 : max lo (min hi w) ≤ hi := max_le h (min_le_left _ _)
    rw [min_eq_right h2, max_eq_right h1]
  · have h2 : min hi w ≤ lo := le_trans (min_le_left _ _) h
    rw [max_eq_left h2, min_eq_left h, max_eq_left h]

lemma clamp_le_self (lo hi v : ℝ) (h : lo ≤ v) : max lo (min hi v) ≤ v :=
  max_le h (min_le_right _ _)

lemma clamp_ge_lo (lo hi v : ℝ) : lo ≤ max lo (min hi v) := le_max_left _ _

/-- A carriage solve with `NaN` input height is `NaN`. -/
lemma carriageZ_znone (cfg : DeltaRobotConfig) (x y : ℝ) (i : ℕ) :
    carriageZ cfg { x := x, y := y, z := none } i = none := by
  simp only [carriageZ]
  split <;> rfl

/-- A finite carriage solve forces a finite input height. -/
lemma carriageZ_some_z (cfg : DeltaRobotConfig) (p : PosN) (i : ℕ) (v : ℝ)
    (h : carriageZ cfg p i = some v) : ∃ w, p.z = some w := by
  simp only [carriageZ] at h
  by_cases hc : cfg.arm_length ^ 2 - carriageHDistSq cfg p.x p.y i < 0
  · rw [if_pos hc] at h
    exact Option.noConfusion h
  · rw [if_neg hc] at h
    cases hz : p.z with
    | none => rw [hz] at h; exact Option.noConfusion h
    | some w => exact ⟨w, rfl⟩

/-- Raising the effector height by `δ` raises every (finite) carriage solve
by exactly `δ` — the horizontal distance does not depend on the height, so
the spec's "first-order approximation" is exact in this code. -/
lemma carriageZ_shift (cfg : DeltaRobotConfig) (x y w δ : ℝ) (i : ℕ) :
    carriageZ cfg { x := x, y := y, z := some (w + δ) } i =
      (carriageZ cfg { x := x, y := y, z := some w } i).map (· + δ) := by
  simp only [carriageZ]
  split
  · rfl
  · simp only [Option.map_some']
    congr 1
    ring

lemma lowestCarriageZ_some (cfg : DeltaRobotConfig) (p : PosN) (l : ℝ)
    (h : lowestCarriageZ cfg p = some l) :
    ∃ v0 v1 v2, carriageZ cfg p 0 = some v0 ∧ carriageZ cfg p 1 = some v1 ∧
      carriageZ cfg p 2 = some v2 ∧ l = min (min v0 v1) v2 := by
  unfold lowestCarriageZ at h
  cases hc0 : carriageZ cfg p 0 with
  | none => rw [hc0, nmin_none_left, nmin_none_left] at h; exact Option.noConfusion h
  | some v0 =>
    cases hc1 : carriageZ cfg p 1 with
    | none => rw [hc0, hc1, nmin_none_right, nmin_none_left] at h
              exact Option.noConfusion h
    | some v1 =>
      cases hc2 : carriageZ cfg p 2 with
      | none => rw [hc0, hc1, hc2, nmin_none_right] at h; exact Option.noConfusion h
      | some v2 =>
        rw [hc0, hc1, hc2] at h
        refine ⟨v0, v1, v2, rfl, rfl, rfl, ?_⟩
        have : some (min (min v0 v1) v2) = some l := h
        injection this.symm

/-- Shifted effector height shifts the lowest carriage by the same amount. -/
lemma lowestCarriageZ_shift (cfg : DeltaRobotConfig) (x y w δ : ℝ)
    (v0 v1 v2 : ℝ)
    (h0 : carriageZ cfg { x := x, y := y, z := some w } 0 = some v0)
    (h1 : carriageZ cfg { x := x, y := y, z := some w } 1 = some v1)
    (h2 : carriageZ cfg { x := x, y := y, z := some w } 2 = some v2) :
    lowestCarriageZ cfg { x := x, y := y, z := some (w + δ) } =
      some (min (min v0 v1) v2 + δ) := by
  unfold lowestCarriageZ
  rw [carriageZ_shift cfg x y w δ 0, carriageZ_shift cfg x y w δ 1,
    carriageZ_shift cfg x y w δ 2, h0, h1, h2]
  simp only [Option.map_some', nmin]
  rw [min_add_add_right, min_add_add_right]

/-- `applyCarriageConstraints` never changes `x` or `y`. -/
lemma applyCarriageConstraints_xy (cfg : DeltaRobotConfig) (p : PosN) :
    (applyCarriageConstraints cfg p).x = p.x ∧
    (applyCarriageConstraints cfg p).y = p.y := by
  unfold applyCarriageConstraints
  split <;> exact ⟨rfl, rfl⟩

/-- A `NaN` input height passes through `applyCarriageConstraints`
unchanged (as `NaN`). -/
lemma applyCarriageConstraints_znone (cfg : DeltaRobotConfig) (x y : ℝ) :
    applyCarriageConstraints cfg { x := x, y := y, z := none } =
      { x := x, y := y, z := none } := by
  unfold applyCarriageConstraints
  have hlow : lowestCarriageZ cfg { x := x, y := y, z := none } = none := by
    unfold lowestCarriageZ
    rw [carriageZ_znone, nmin_none_left, nmin_none_left]
  rw [hlow]
  rw [if_neg (nge_none_left _)]
  rw [nsub_none_right, nadd_none_right]

lemma maxPrintRadius_nonneg (cfg : DeltaRobotConfig) (bc : BuildVolumeConfig) :
    0 ≤ (calculateBuildVolume cfg bc).maxPrintRadius := by
  refine le_min ?_ ?_
  · show (0:ℝ) ≤ calculateRealBuildPlateRadius cfg bc.constraint_type
      defaultTowerCollisionOffset
    cases bc.constraint_type <;> exact le_max_left 0 _
  · exact le_max_left 0 _

/-- The clamp stage always lands inside the constraint circle. -/
lemma constrainPositionClamp_dist_le (cfg : DeltaRobotConfig)
    (bc : BuildVolumeConfig) (p : PosN) :
    Real.sqrt ((constrainPositionClamp cfg bc p).x ^ 2 +
        (constrainPositionClamp cfg bc p).y ^ 2) ≤
      (calculateBuildVolume cfg bc).maxPrintRadius := by
  have hR0 : 0 ≤ (calculateBuildVolume cfg bc).maxPrintRadius :=
    maxPrintRadius_nonneg cfg bc
  by_cases h : Real.sqrt (p.x ^ 2 + p.y ^ 2) >
      (calculateBuildVolume cfg bc).maxPrintRadius
  · have hx : (constrainPositionClamp cfg bc p).x =
        p.x / Real.sqrt (p.x ^ 2 + p.y ^ 2) *
          (calculateBuildVolume cfg bc).maxPrintRadius := by
      simp only [constrainPositionClamp]
      rw [if_pos h]
    have hy : (constrainPositionClamp cfg bc p).y =
        p.y / Real.sqrt (p.x ^ 2 + p.y ^ 2) *
          (calculateBuildVolume cfg bc).maxPrintRadius := by
      simp only [constrainPositionClamp]
      rw [if_pos h]
    have hd0 : 0 < Real.sqrt (p.x ^ 2 + p.y ^ 2) := lt_of_le_of_lt hR0 h
    have hdsq : Real.sqrt (p.x ^ 2 + p.y ^ 2) ^ 2 = p.x ^ 2 + p.y ^ 2 :=
      Real.sq_sqrt (by positivity)
    rw [hx, hy]
    have hcomb : (p.x / Real.sqrt (p.x ^ 2 + p.y ^ 2) *
          (calculateBuildVolume cfg bc).maxPrintRadius) ^ 2 +
        (p.y / Real.sqrt (p.x ^ 2 + p.y ^ 2) *
          (calculateBuildVolume cfg bc).maxPrintRadius) ^ 2 =
        (calculateBuildVolume cfg bc).maxPrintRadius ^ 2 := by
      have hne : Real.sqrt (p.x ^ 2 + p.y ^ 2) ≠ 0 := ne_of_gt hd0
      have e1 : (p.x / Real.sqrt (p.x ^ 2 + p.y ^ 2) *
            (calculateBuildVolume cfg bc).maxPrintRadius) ^ 2 +
          (p.y / Real.sqrt (p.x ^ 2 + p.y ^ 2) *
            (calculateBuildVolume cfg bc).maxPrintRadius) ^ 2 =
          (p.x ^ 2 + p.y ^ 2) / Real.sqrt (p.x ^ 2 + p.y ^ 2) ^ 2 *
            (calculateBuildVolume cfg bc).maxPrintRadius ^ 2 := by
        ring
      rw [hdsq] at e1
      have hsum_ne : p.x ^ 2 + p.y ^ 2 ≠ 0 := by
        rw [← hdsq]
        exact pow_ne_zero 2 hne
      rw [e1, div_self hsum_ne, one_mul]
    rw [hcomb, Real.sqrt_sq hR0]
  · push_neg at h
    have hx : (constrainPositionClamp cfg bc p).x = p.x := by
      simp only [constrainPositionClamp]
      rw [if_neg (not_lt.2 h)]
    have hy : (constrainPositionClamp cfg bc p).y = p.y := by
      simp only [constrainPositionClamp]
      rw [if_neg (not_lt.2 h)]
    rw [hx, hy]
    exact h

/-- When the input is already inside the constraint circle the clamp stage
only clamps `z`. -/
lemma constrainPositionClamp_of_le (cfg : DeltaRobotConfig)
    (bc : BuildVolumeConfig) (r : PosN)
    (h : Real.sqrt (r.x ^ 2 + r.y ^ 2) ≤
      (calculateBuildVolume cfg bc).maxPrintRadius) :
    constrainPositionClamp cfg bc r =
      { x := r.x, y := r.y
        z := nclamp r.z (constrainMinZ cfg) (constrainMaxZ cfg) } := by
  simp only [constrainPositionClamp]
  rw [if_neg (not_lt.2 h), if_neg (not_lt.2 h)]

/-- The crux of idempotence: re-clamping and re-correcting the output of
`applyCarriageConstraints` (for a `z` that is already a fixed point of the
vertical clamp) reproduces the same output, because an effector shift moves
every carriage by exactly the same amount. -/
lemma applyCarriageConstraints_stable (cfg : DeltaRobotConfig) (x y zc : ℝ)
    (hzc : max (constrainMinZ cfg) (min (constrainMaxZ cfg) zc) = zc) :
    applyCarriageConstraints cfg
      { x := x, y := y
        z := nclamp (applyCarriageConstraints cfg { x := x, y := y, z := some zc }).z
          (constrainMinZ cfg) (constrainMaxZ cfg) } =
      applyCarriageConstraints cfg { x := x, y := y, z := some zc } := by
  by_cases hge : nge (lowestCarriageZ cfg { x := x, y := y, z := some zc })
      (some (minAllowedCarriageZ cfg))
  · have h1 : applyCarriageConstraints cfg { x := x, y := y, z := some zc } =
        { x := x, y := y, z := some zc } := by
      unfold applyCarriageConstraints
      rw [if_pos hge]
    rw [h1]
    have h2 : nclamp (some zc) (constrainMinZ cfg) (constrainMaxZ cfg) =
        some zc := by
      simp only [nclamp, Option.map_some']
      rw [hzc]
    show applyCarriageConstraints cfg
      { x := x, y := y,
        z := nclamp (some zc) (constrainMinZ cfg) (constrainMaxZ cfg) } = _
    rw [h2, h1]
  · have hz1 : (applyCarriageConstraints cfg { x := x, y := y, z := some zc }).z =
        nadd (some zc) (nsub (some (minAllowedCarriageZ cfg))
          (lowestCarriageZ cfg { x := x, y := y, z := some zc })) := by
      unfold applyCarriageConstraints
      rw [if_neg hge]
    cases hlow : lowestCarriageZ cfg { x := x, y := y, z := some zc } with
    | none =>
      have hfull : applyCarriageConstraints cfg { x := x, y := y, z := some zc } =
          { x := x, y := y, z := none } := by
        refine PosN.ext (applyCarriageConstraints_xy cfg _).1
          (applyCarriageConstraints_xy cfg _).2 ?_
        rw [hz1, hlow, nsub_none_right, nadd_none_right]
      rw [hfull]
      show applyCarriageConstraints cfg { x := x, y := y, z := none } = _
      rw [applyCarriageConstraints_znone]
    | some l =>
      have hl : l < minAllowedCarriageZ cfg := by
        by_contra hcon
        push_neg at hcon
        exact hge (by rw [hlow]; exact (nge_some_some _ _).2 hcon)
      obtain ⟨v0, v1, v2, hc0, hc1, hc2, hlmin⟩ :=
        lowestCarriageZ_some cfg _ l hlow
      have hfull : applyCarriageConstraints cfg { x := x, y := y, z := some zc } =
          { x := x, y := y, z := some (zc + (minAllowedCarriageZ cfg - l)) } := by
        refine PosN.ext (applyCarriageConstraints_xy cfg _).1
          (applyCarriageConstraints_xy cfg _).2 ?_
        rw [hz1, hlow]
        rfl
      rw [hfull]
      have hδ0 : 0 ≤ minAllowedCarriageZ cfg - l := le_of_lt (sub_pos.2 hl)
      have hzc_lo : constrainMinZ cfg ≤ zc := hzc ▸ le_max_left _ _
      have hcle : max (constrainMinZ cfg) (min (constrainMaxZ cfg)
            (zc + (minAllowedCarriageZ cfg - l))) ≤
          zc + (minAllowedCarriageZ cfg - l) :=
        clamp_le_self _ _ _ (by linarith)
      show applyCarriageConstraints cfg
        { x := x, y := y
          z := some (max (constrainMinZ cfg) (min (constrainMaxZ cfg)
            (zc + (minAllowedCarriageZ cfg - l)))) } = _
      set c := max (constrainMinZ cfg) (min (constrainMaxZ cfg)
        (zc + (minAllowedCarriageZ cfg - l))) with hc
      have hcform : c = zc + (c - zc) := by ring
      have hlow' : lowestCarriageZ cfg { x := x, y := y, z := some c } =
          some (l + (c - zc)) := by
        have hshift := lowestCarriageZ_shift cfg x y zc (c - zc) v0 v1 v2 hc0 hc1 hc2
        rw [← hcform] at hshift
        rw [hshift, ← hlmin]
      rcases eq_or_lt_of_le hcle with heq | hlt
      · unfold applyCarriageConstraints
        rw [hlow']
        have hminA : l + (c - zc) = minAllowedCarriageZ cfg := by
          rw [heq]
          ring
        rw [hminA, if_pos ((nge_some_some _ _).2 (le_refl _))]
        rw [heq]
      · unfold applyCarriageConstraints
        rw [hlow', if_neg (by rw [nge_some_some]; linarith)]
        refine PosN.ext rfl rfl ?_
        show nadd (some c) (nsub (some (minAllowedCarriageZ cfg))
          (some (l + (c - zc)))) = some (zc + (minAllowedCarriageZ cfg - l))
        simp only [nsub, nadd]
        congr 1
        ring

/-- **C4.** `constrainPosition` is idempotent: applying it twice gives the
same result as applying it once, for every input position (including one
whose vertical coordinate is already `NaN`).  The radial clamp lands exactly
on the constraint circle, the vertical clamp is idempotent, and the carriage
correction shifts every carriage by exactly the applied `z`-shift, so the
second pass finds nothing left to correct (or reproduces the same overshoot
and corrects it to the same value). -/
theorem C4_constrainPosition_idempotent (cfg : DeltaRobotConfig)
    (bc : BuildVolumeConfig) (p : PosN) :
    constrainPosition cfg bc (constrainPosition cfg bc p) =
      constrainPosition cfg bc p := by
  unfold constrainPosition
  have hdist1 : Real.sqrt ((applyCarriageConstraints cfg
        (constrainPositionClamp cfg bc p)).x ^ 2 +
      (applyCarriageConstraints cfg (constrainPositionClamp cfg bc p)).y ^ 2) ≤
      (calculateBuildVolume cfg bc).maxPrintRadius := by
    rw [(applyCarriageConstraints_xy cfg _).1, (applyCarriageConstraints_xy cfg _).2]
    exact constrainPositionClamp_dist_le cfg bc p
  rw [constrainPositionClamp_of_le cfg bc _ hdist1]
  rw [(applyCarriageConstraints_xy cfg _).1, (applyCarriageConstraints_xy cfg _).2]
  rcases hq : constrainPositionClamp cfg bc p with ⟨qx, qy, qz⟩
  have hqz : qz = nclamp p.z (constrainMinZ cfg) (constrainMaxZ cfg) := by
    have : (constrainPositionClamp cfg bc p).z =
        nclamp p.z (constrainMinZ cfg) (constrainMaxZ cfg) := rfl
    rw [hq] at this
    exact this
  cases hpz : p.z with
  | none =>
    rw [hpz] at hqz
    simp only [nclamp, Option.map_none'] at hqz
    subst hqz
    rw [applyCarriageConstraints_znone]
    show applyCarriageConstraints cfg { x := qx, y := qy, z := none } = _
    rw [applyCarriageConstraints_znone]
  | some w =>
    rw [hpz] at hqz
    simp only [nclamp, Option.map_some'] at hqz
    subst hqz
    exact applyCarriageConstraints_stable cfg qx qy _ (clamp_idem _ _ _)

/-- **C9.** If the radially-and-vertically clamped image of the input is
kinematically unreachable for at least one tower (its carriage solve is
`NaN`), `constrainPosition` returns the clamped `x`/`y` with a `NaN` `z`: the
`Math.min` over the carriages is `NaN`, the `>=` guard is false, and the
`NaN` deficit is added into `z`.  No error is raised and no flag is
returned. -/
theorem C9_unreachable_clamped_gives_nan_z (cfg : DeltaRobotConfig)
    (bc : BuildVolumeConfig) (p : PosN)
    (h : ∃ i < 3, carriageZ cfg (constrainPositionClamp cfg bc p) i = none) :
    constrainPosition cfg bc p =
      { x := (constrainPositionClamp cfg bc p).x
        y := (constrainPositionClamp cfg bc p).y
        z := none } := by
  have hlow : lowestCarriageZ cfg (constrainPositionClamp cfg bc p) = none := by
    obtain ⟨i, hi, hnone⟩ := h
    unfold lowestCarriageZ
    interval_cases i
    · rw [hnone, nmin_none_left, nmin_none_left]
    · rw [hnone, nmin_none_right, nmin_none_left]
    · rw [hnone, nmin_none_right]
  unfold constrainPosition applyCarriageConstraints
  rw [hlow, if_neg (nge_none_left _), nsub_none_right, nadd_none_right]

/-- The default build-volume configuration (`physical_bed_radius = 120`,
`constraint_type = effector-edge`). -/
def bcDefault : BuildVolumeConfig where
  physical_bed_radius := 120
  constraint_type := ConstraintType.effectorEdge

/-- The origin position sits inside the constraint circle, so the clamp
stage only clamps `z`. -/
lemma clampStage_origin (cfg : DeltaRobotConfig) (bc : BuildVolumeConfig) :
    constrainPositionClamp cfg bc posOrigin =
      { x := 0, y := 0
        z := some (max (constrainMinZ cfg) (min (constrainMaxZ cfg) 0)) } := by
  rw [constrainPositionClamp_of_le]
  · rfl
  · have h0 : posOrigin.x ^ 2 + posOrigin.y ^ 2 = 0 := by
      show (0:ℝ) ^ 2 + 0 ^ 2 = 0
      norm_num
    rw [h0, Real.sqrt_zero]
    exact maxPrintRadius_nonneg cfg bc

/-- Kossel-standard geometry with a degenerate 1mm arm: every tower is out
of reach from the (clamped) origin. -/
def cfgKS1 : DeltaRobotConfig := { kosselStandard with arm_length := (1:ℝ) }

lemma cfgKS1_tower0_none :
    carriageZ cfgKS1 (constrainPositionClamp cfgKS1 bcDefault posOrigin) 0 =
      none := by
  rw [clampStage_origin, carriageZ_eval, sin_towerAngle_zero]
  rw [show cfgKS1.arm_length = 1 from rfl, show cfgKS1.bot_radius = 195 from rfl,
    show cfgKS1.effector_radius = 40 from rfl]
  rw [if_pos]
  have h3 := sqrt3_sq
  have h3nn := Real.sqrt_nonneg 3
  show (1:ℝ) ^ 2 - ((Real.sqrt 3 / 2 * (195 - 40) - 0) ^ 2 + 0 ^ 2) < 0
  nlinarith

/-- Witness for `C9_unreachable_clamped_gives_nan_z` at the concrete
configuration `cfgKS1` and the origin position. -/
theorem C9_unreachable_clamped_gives_nan_z_witness :
    constrainPosition cfgKS1 bcDefault posOrigin =
      { x := 0, y := 0, z := none } := by
  have h := C9_unreachable_clamped_gives_nan_z cfgKS1 bcDefault posOrigin
    ⟨0, by norm_num, cfgKS1_tower0_none⟩
  rw [h, clampStage_origin]

/-- **C10.** If the clamped image of the input yields three finite carriage
positions, the position returned by `constrainPosition` satisfies the
carriage-floor invariant exactly: every carriage recomputed from the
returned position is at least
`max(-bot_height/2 + PLATFORM_HEIGHT + 10, -bot_height/2 + 25)`.  A vertical
effector shift of `δ` moves every carriage by exactly `δ`
(`carriageZ_shift`), so the single correction pass of
`applyCarriageConstraints` suffices. -/
theorem C10_carriage_floor_invariant (cfg : DeltaRobotConfig)
    (bc : BuildVolumeConfig) (p : PosN)
    (h : ∀ i < 3, ∃ v, carriageZ cfg (constrainPositionClamp cfg bc p) i = some v) :
    ∀ i < 3, ∃ v, carriageZ cfg (constrainPosition cfg bc p) i = some v ∧
      minAllowedCarriageZ cfg ≤ v := by
  obtain ⟨v0, h0⟩ := h 0 (by norm_num)
  obtain ⟨v1, h1⟩ := h 1 (by norm_num)
  obtain ⟨v2, h2⟩ := h 2 (by norm_num)
  rcases hq : constrainPositionClamp cfg bc p with ⟨qx, qy, qz⟩
  rw [hq] at h0 h1 h2
  obtain ⟨w, hw⟩ := carriageZ_some_z cfg _ 0 v0 h0
  have hwz : qz = some w := hw
  subst hwz
  have hlow : lowestCarriageZ cfg { x := qx, y := qy, z := some w } =
      some (min (min v0 v1) v2) := by
    unfold lowestCarriageZ
    rw [h0, h1, h2]
    rfl
  unfold constrainPosition
  rw [hq]
  by_cases hge : minAllowedCarriageZ cfg ≤ min (min v0 v1) v2
  · have happ : applyCarriageConstraints cfg { x := qx, y := qy, z := some w } =
        { x := qx, y := qy, z := some w } := by
      unfold applyCarriageConstraints
      rw [hlow, if_pos ((nge_some_some _ _).2 hge)]
    rw [happ]
    intro i hi
    interval_cases i
    · exact ⟨v0, h0, le_trans hge (le_trans (min_le_left _ _) (min_le_left _ _))⟩
    · exact ⟨v1, h1, le_trans hge (le_trans (min_le_left _ _) (min_le_right _ _))⟩
    · exact ⟨v2, h2, le_trans hge (min_le_right _ _)⟩
  · have happ : applyCarriageConstraints cfg { x := qx, y := qy, z := some w } =
        { x := qx, y := qy
          z := some (w + (minAllowedCarriageZ cfg - min (min v0 v1) v2)) } := by
      unfold applyCarriageConstraints
      rw [hlow, if_neg (by rw [nge_some_some]; exact hge)]
      rfl
    rw [happ]
    have hshift0 := carriageZ_shift cfg qx qy w
      (minAllowedCarriageZ cfg - min (min v0 v1) v2) 0
    have hshift1 := carriageZ_shift cfg qx qy w
      (minAllowedCarriageZ cfg - min (min v0 v1) v2) 1
    have hshift2 := carriageZ_shift cfg qx qy w
      (minAllowedCarriageZ cfg - min (min v0 v1) v2) 2
    rw [h0] at hshift0
    rw [h1] at hshift1
    rw [h2] at hshift2
    simp only [Option.map_some'] at hshift0 hshift1 hshift2
    intro i hi
    interval_cases i
    · refine ⟨_, hshift0, ?_⟩
      have hv0 : min (min v0 v1) v2 ≤ v0 :=
        le_trans (min_le_left _ _) (min_le_left _ _)
      linarith
    · refine ⟨_, hshift1, ?_⟩
      have hv1 : min (min v0 v1) v2 ≤ v1 :=
        le_trans (min_le_left _ _) (min_le_right _ _)
      linarith
    · refine ⟨_, hshift2, ?_⟩
      have hv2 : min (min v0 v1) v2 ≤ v2 := min_le_right _ _
      linarith

lemma cfgKS315_origin_clamped_finite :
    ∀ i < 3, ∃ v, carriageZ cfgKS315
      (constrainPositionClamp cfgKS315 bcDefault posOrigin) i = some v := by
  intro i hi
  rw [clampStage_origin]
  have h3 := sqrt3_sq
  have h3nn := Real.sqrt_nonneg 3
  have h3lt := sqrt3_lt_two
  interval_cases i
  · rw [carriageZ_eval, sin_towerAngle_zero]
    rw [show cfgKS315.arm_length = 315 from cfgKS315_arm,
      show cfgKS315.bot_radius = 195 from rfl,
      show cfgKS315.effector_radius = 40 from rfl]
    rw [if_neg (by nlinarith)]
    exact ⟨_, rfl⟩
  · rw [carriageZ_eval, sin_towerAngle_one]
    rw [show cfgKS315.arm_length = 315 from cfgKS315_arm]
    rw [if_neg (by norm_num)]
    exact ⟨_, rfl⟩
  · rw [carriageZ_eval, sin_towerAngle_two]
    rw [show cfgKS315.arm_length = 315 from cfgKS315_arm,
      show cfgKS315.bot_radius = 195 from rfl,
      show cfgKS315.effector_radius = 40 from rfl]
    rw [if_neg (by nlinarith)]
    exact ⟨_, rfl⟩

/-- Witness for `C10_carriage_floor_invariant`: the Kossel-standard preset
(arm 315) at the origin — all carriage solves of the clamped origin are
finite, so every carriage of the constrained position is at least
`minAllowedCarriageZ = -235`. -/
theorem C10_carriage_floor_invariant_witness :
    ∃ v, carriageZ cfgKS315
        (constrainPosition cfgKS315 bcDefault posOrigin) 0 = some v ∧
      minAllowedCarriageZ cfgKS315 ≤ v :=
  C10_carriage_floor_invariant cfgKS315 bcDefault posOrigin
    cfgKS315_origin_clamped_finite 0 (by norm_num)

end DeltaCalc
